import Mathlib

/-!
# Verification of the ValutaTrade Hub rate/ledger core

A shallow embedding of the rate-resolution and ledger (buy/sell) core of the
`valutatrade_hub` repository, together with theorems settling the frozen
claims about it.

Conventions of the embedding:
* Python floats are modelled as exact rationals (`ℚ`); timestamps as `Int`
  seconds.
* Python dicts are modelled as insertion-ordered association lists
  (`List (String × α)`); assignment is `dictInsert` (replace in place or
  append), lookup is `List.lookup`.
* Functions that raise exceptions return `Except`/`Option`, or a tagged
  outcome type where the Python code catches the exception itself.
* Stateful code (the session portfolio, the persisted portfolio record, the
  rates cache file) is passed explicitly.
-/

/-- Python dict assignment `m[k] = v` on an association list: replaces the
first binding of `k` in place, otherwise appends the new binding. -/
def dictInsert {α : Type} (m : List (String × α)) (k : String) (v : α) :
    List (String × α) :=
  match m with
  | [] => [(k, v)]
  | (k', v') :: rest =>
      if k' = k then (k, v) :: rest else (k', v') :: dictInsert rest k v

theorem lookup_dictInsert_self {α : Type} (m : List (String × α)) (k : String)
    (v : α) : List.lookup k (dictInsert m k v) = some v := by
  induction m with
  | nil => simp [dictInsert, List.lookup]
  | cons hd tl ih =>
      obtain ⟨k', v'⟩ := hd
      by_cases h : k' = k
      · simp [dictInsert, h, List.lookup]
      · have hb : (k == k') = false := beq_eq_false_iff_ne.mpr (fun he => h he.symm)
        simp [dictInsert, h, List.lookup, hb, ih]

theorem lookup_dictInsert_other {α : Type} (m : List (String × α))
    (k k' : String) (v : α) (h : k ≠ k') :
    List.lookup k (dictInsert m k' v) = List.lookup k m := by
  have hb : (k == k') = false := beq_eq_false_iff_ne.mpr h
  induction m with
  | nil => simp [dictInsert, List.lookup, hb]
  | cons hd tl ih =>
      obtain ⟨k₀, v₀⟩ := hd
      by_cases h₀ : k₀ = k'
      · subst h₀
        simp [dictInsert, List.lookup, hb]
      · simp [dictInsert, h₀, List.lookup, ih]

theorem lookup_dictInsert_isSome {α : Type} (m : List (String × α))
    (k k' : String) (v : α) (h : (List.lookup k m).isSome = true) :
    (List.lookup k (dictInsert m k' v)).isSome = true := by
  by_cases hk : k = k'
  · subst hk; simp [lookup_dictInsert_self]
  · rwa [lookup_dictInsert_other m k k' v hk]

/-- Python `str.upper()`. -/
def pyUpper (s : String) : String := String.mk (s.data.map Char.toUpper)

/-- Python `str.strip()`: drop leading and trailing whitespace. -/
def pyStrip (s : String) : String :=
  String.mk (((s.data.dropWhile Char.isWhitespace).reverse.dropWhile
    Char.isWhitespace).reverse)

/-- The code normalization `code.upper().strip()` used throughout the
repository. -/
def pyNormalize (s : String) : String := pyStrip (pyUpper s)

/-- One record of the rates cache: the value stored under a pair key,
`{rate, updated_at, source}` (`storage.py` lines 77-82). `updated_at` is
optional because readers access it with `.get`. -/
structure RateEntry where
  rate : ℚ
  updated_at : Option Int
  source : String
deriving Repr, DecidableEq

/-- The `data/rates.json` file as the two readers in the repository see it:
`top` holds pair-shaped records stored at the top level of the JSON object
(the format `DatabaseManager.update_rate` writes and `DatabaseManager.get_rate`
reads), `pairs` holds the records nested under the top-level `"pairs"` key
(the format `RatesStorage.update_rates` writes and the fallback in
`_get_rate_with_ttl` reads). -/
structure RatesFile where
  top : List (String × RateEntry)
  pairs : List (String × RateEntry)
  last_refresh : Option Int
deriving Repr, DecidableEq

/-- The rates file as `RatesStorage._ensure_file_exists` creates it:
`{"pairs": {}, "last_refresh": null}` — no pair records at the top level. -/
def RatesFile.initial : RatesFile := { top := [], pairs := [], last_refresh := none }

/-- `RatesStorage.update_rates` (`storage.py` lines 66-93): write every pair of
the batch under the `"pairs"` key, all stamped with the same timestamp and
source, and bump `last_refresh`. -/
def RatesStorage.update_rates (file : RatesFile) (rates : List (String × ℚ))
    (source : String) (now : Int) : RatesFile :=
  { file with
    pairs := rates.foldl
      (fun ps kv => dictInsert ps kv.1 { rate := kv.2, updated_at := some now, source := source })
      file.pairs
    last_refresh := some now }

/-- `DatabaseManager.get_rate` (`database.py` lines 220-244): normalize the
codes, return `1.0` when they coincide, otherwise look the pair keys up at the
TOP LEVEL of the loaded JSON object (`rate_key in rates`), direct first, then
the inverse as a reciprocal when non-zero. -/
def DatabaseManager.get_rate (file : RatesFile) (from_currency to_currency : String) :
    Option ℚ :=
  let f := pyNormalize from_currency
  let t := pyNormalize to_currency
  if f = t then some 1
  else
    match List.lookup (f ++ "_" ++ t) file.top with
    | some e => some e.rate
    | none =>
        match List.lookup (t ++ "_" ++ f) file.top with
        | some e => if e.rate ≠ 0 then some (1 / e.rate) else none
        | none => none

/-- The fallback read of `_get_rate_with_ttl` (`usecases.py` lines 507-543):
read the records under the `"pairs"` key directly from `rates.json`; a truthy
direct rate is returned as-is, otherwise a truthy non-zero inverse rate is
returned as a reciprocal. This path performs NO freshness / TTL check: the
function does not even receive a clock or a TTL. -/
def ratesFallbackLookup (file : RatesFile) (from_currency to_currency : String) :
    Option ℚ :=
  let direct :=
    match List.lookup (from_currency ++ "_" ++ to_currency) file.pairs with
    | some e => if e.rate ≠ 0 then some e.rate else none
    | none => none
  match direct with
  | some r => some r
  | none =>
      match List.lookup (to_currency ++ "_" ++ from_currency) file.pairs with
      | some e => if e.rate ≠ 0 then some (1 / e.rate) else none
      | none => none

/-- The `updated_at` timestamp the TTL check of `_get_rate_with_ttl` reads from
the cache (`usecases.py` lines 447-452): direct pair key first, else the
reverse key. -/
def pairsUpdatedAt (file : RatesFile) (from_currency to_currency : String) :
    Option Int :=
  match List.lookup (from_currency ++ "_" ++ to_currency) file.pairs with
  | some e => e.updated_at
  | none =>
      match List.lookup (to_currency ++ "_" ++ from_currency) file.pairs with
      | some e => e.updated_at
      | none => none

/-- `_get_rate_with_ttl` (`usecases.py` lines 424-543). First ask
`DatabaseManager.get_rate`; when it answers, run the TTL check — which only
logs a warning when `age_seconds > ttl_seconds` and returns the very same rate
in the stale branch (line 494), the fresh branch and every error branch
(line 505). When the database lookup fails, fall back to reading `rates.json`
under its `"pairs"` key, with no TTL check at all. -/
def getRateWithTtl (file : RatesFile) (from_currency to_currency : String)
    (now ttl : Int) : Option ℚ :=
  match DatabaseManager.get_rate file from_currency to_currency with
  | some rate =>
      match pairsUpdatedAt file from_currency to_currency with
      | some u => if now - u > ttl then some rate else some rate
      | none => some rate
  | none => ratesFallbackLookup file from_currency to_currency

/-- `_convert_through_usd` (`usecases.py` lines 116-162): direct rate when one
side is USD (reciprocal of the `X → USD` rate for `USD → X`), else the
triangulation `(from → USD) / (to → USD)`; Python truthiness makes a `0.0` leg
count as unavailable. -/
def convert_through_usd (file : RatesFile) (from_currency to_currency : String)
    (now ttl : Int) : Option ℚ :=
  if from_currency = "USD" then
    match getRateWithTtl file to_currency "USD" now ttl with
    | some r => if r ≠ 0 then some (1 / r) else none
    | none => none
  else if to_currency = "USD" then
    getRateWithTtl file from_currency "USD" now ttl
  else
    match getRateWithTtl file from_currency "USD" now ttl,
          getRateWithTtl file to_currency "USD" now ttl with
    | some a, some b => if a ≠ 0 ∧ b ≠ 0 then some (a / b) else none
    | some _, none => none
    | none, _ => none

/-- `Wallet` (`models.py` lines 105-154): a currency code (normalized
`upper().strip()` by the constructor) and a balance, modelled as an exact
rational. -/
structure Wallet where
  currency_code : String
  balance : ℚ
deriving Repr, DecidableEq

/-- The `Wallet(...)` constructor normalizes the code with
`.upper().strip()` (`models.py` line 109). -/
def Wallet.new (code : String) (balance : ℚ) : Wallet :=
  { currency_code := pyNormalize code, balance := balance }

/-- `Wallet.deposit` (`models.py` lines 124-129): `if not amount` rejects a
zero amount with `TypeError` (Python truthiness), a negative amount is
rejected with `ValueError`, otherwise the balance grows by `amount`. -/
def Wallet.deposit (w : Wallet) (amount : ℚ) : Except String Wallet :=
  if amount = 0 then Except.error "TypeError: deposit amount must be a number"
  else if amount < 0 then Except.error "ValueError: deposit amount must be positive"
  else Except.ok { w with balance := w.balance + amount }

/-- `Wallet.withdraw` (`models.py` lines 131-138): `if not amount` rejects a
zero amount with `TypeError`; then `amount > balance` is rejected (insufficient
funds) BEFORE the negativity check; then a negative amount is rejected;
otherwise the balance shrinks by `amount`. -/
def Wallet.withdraw (w : Wallet) (amount : ℚ) : Except String Wallet :=
  if amount = 0 then Except.error "TypeError: withdraw amount must be a number"
  else if amount > w.balance then Except.error "ValueError: insufficient funds"
  else if amount < 0 then Except.error "ValueError: withdraw amount must be positive"
  else Except.ok { w with balance := w.balance - amount }

/-- A deposit or a withdraw request against a wallet. -/
inductive WalletOp where
  | dep (amount : ℚ)
  | wd (amount : ℚ)
deriving Repr, DecidableEq

/-- Apply one operation; a raised exception leaves the wallet untouched. -/
def Wallet.applyOp (w : Wallet) (op : WalletOp) : Wallet :=
  match op with
  | WalletOp.dep a => match w.deposit a with
      | Except.ok w' => w'
      | Except.error _ => w
  | WalletOp.wd a => match w.withdraw a with
      | Except.ok w' => w'
      | Except.error _ => w

/-- Run a sequence of deposit/withdraw calls. -/
def Wallet.runOps (w : Wallet) (ops : List WalletOp) : Wallet :=
  ops.foldl Wallet.applyOp w

/-- `Portfolio` (`models.py` lines 157-235): a user id and a dict
`currency_code → Wallet`. -/
structure Portfolio where
  user_id : Int
  wallets : List (String × Wallet)
deriving Repr, DecidableEq

/-- `Portfolio.get_wallet` (`models.py` lines 203-210): normalize the code;
when no wallet exists under it, INSERT a fresh zero-balance wallet into the
mapping; return the wallet found or created together with the (possibly
mutated) portfolio. It never returns `None`. -/
def Portfolio.get_wallet (p : Portfolio) (currency_code : String) :
    Wallet × Portfolio :=
  let c := pyNormalize currency_code
  match List.lookup c p.wallets with
  | some w => (w, p)
  | none =>
      let w := Wallet.new c 0
      (w, { p with wallets := dictInsert p.wallets c w })

/-- A `Wallet` instance is always truthy in Python: `models.py` defines
neither `__bool__` nor `__len__` on the class, so `if not wallet:` in
`sell_currency` can never fire. -/
def walletFalsy (_w : Wallet) : Bool := false

/-- The currency registry `_CURRENCY_REGISTRY` (`currencies.py` lines
103-118): the codes accepted by `get_currency`. -/
def SUPPORTED_CURRENCIES : List String :=
  ["USD", "EUR", "RUB", "GBP", "JPY", "CNY", "BTC", "ETH", "USDT", "BNB", "XRP"]

/-- The authenticated session state the use cases act on: the in-memory
`_current_portfolio` and the portfolio record held by the persistence layer
(`db.update_portfolio` is the only call that overwrites the latter). -/
structure SessionState where
  portfolio : Portfolio
  persisted : Portfolio
deriving Repr, DecidableEq

/-- How a buy/sell call ends. Every constructor except `persisted` is a
`(False, message)` return of the Python function; `attributeError` is the
`AttributeError` raised by `portfolio.get_or_create_wallet(...)` — a method
that does not exist on `Portfolio` in `models.py` — caught by the generic
`except Exception` handler. -/
inductive TxOutcome where
  | validationError
  | currencyNotFound
  | usdRejected
  | noWalletMsg
  | insufficientFunds
  | rateUnavailable
  | internalError
  | attributeError
  | persisted
deriving Repr, DecidableEq

/-- `buy_currency` (`usecases.py` lines 217-285), for an authenticated
session. Steps in source order: amount/code validation, registry lookup, the
USD self-purchase check, rate resolution (`if not rate` also rejects a `0.0`
rate by truthiness), then `portfolio.get_or_create_wallet("USD")` — which
raises `AttributeError` because `Portfolio` defines no such method, so the
call returns a failure before any state is touched. The withdraw / deposit /
persist steps that follow in the source are unreachable. -/
def buy_currency (st : SessionState) (file : RatesFile)
    (currency_code : String) (amount : ℚ) (now ttl : Int) :
    TxOutcome × SessionState :=
  if currency_code = "" ∨ amount ≤ 0 then (TxOutcome.validationError, st)
  else
    let c := pyNormalize currency_code
    if ¬ SUPPORTED_CURRENCIES.contains c then (TxOutcome.currencyNotFound, st)
    else if c = "USD" then (TxOutcome.usdRejected, st)
    else
      match getRateWithTtl file c "USD" now ttl with
      | none => (TxOutcome.rateUnavailable, st)
      | some r =>
          if r = 0 then (TxOutcome.rateUnavailable, st)
          else (TxOutcome.attributeError, st)

/-- `sell_currency` (`usecases.py` lines 287-358), for an authenticated
session. Steps in source order: amount validation, registry lookup, the USD
check, `portfolio.get_wallet` (which lazily CREATES a missing wallet, so the
`if not wallet` branch is dead), the funds check against that wallet, rate
resolution, `wallet.withdraw(amount)` — which mutates the in-memory
portfolio — and then `portfolio.get_or_create_wallet("USD")`, which raises
`AttributeError` (no such method on `Portfolio`), caught by the generic
handler: the call fails with the source wallet already debited and nothing
persisted. -/
def sell_currency (st : SessionState) (file : RatesFile)
    (currency_code : String) (amount : ℚ) (now ttl : Int) :
    TxOutcome × SessionState :=
  if amount ≤ 0 then (TxOutcome.validationError, st)
  else
    let c := pyNormalize currency_code
    if ¬ SUPPORTED_CURRENCIES.contains c then (TxOutcome.currencyNotFound, st)
    else if c = "USD" then (TxOutcome.usdRejected, st)
    else
      let wp := st.portfolio.get_wallet c
      let wallet := wp.1
      let p1 := wp.2
      if walletFalsy wallet then (TxOutcome.noWalletMsg, { st with portfolio := p1 })
      else if wallet.balance < amount then
        (TxOutcome.insufficientFunds, { st with portfolio := p1 })
      else
        match getRateWithTtl file c "USD" now ttl with
        | none => (TxOutcome.rateUnavailable, { st with portfolio := p1 })
        | some r =>
            if r = 0 then (TxOutcome.rateUnavailable, { st with portfolio := p1 })
            else
              match wallet.withdraw amount with
              | Except.error _ => (TxOutcome.internalError, { st with portfolio := p1 })
              | Except.ok w' =>
                  let p2 := { p1 with wallets := dictInsert p1.wallets c w' }
                  (TxOutcome.attributeError, { st with portfolio := p2 })

/-- The slice of `ParserConfig` (`parser_service/config.py`) the clients and
the coordinator consume: base currency, tracked fiat codes, and the
ticker ↔ CoinGecko-id map. -/
structure ParserConfig where
  BASE_CURRENCY : String := "USD"
  FIAT_CURRENCIES : List String := ["EUR", "GBP", "RUB", "JPY", "CNY"]
  CRYPTO_ID_MAP : List (String × String) :=
    [("BTC", "bitcoin"), ("ETH", "ethereum"), ("SOL", "solana"),
     ("BNB", "binancecoin"), ("XRP", "ripple"), ("USDT", "tether"),
     ("ADA", "cardano"), ("DOGE", "dogecoin"), ("DOT", "polkadot"),
     ("MATIC", "polygon")]
deriving Repr, DecidableEq

/-- `ParserConfig.get_ticker_by_id` (`config.py` lines 138-145): reverse
search of `CRYPTO_ID_MAP`; `none` models the raised `ValueError`. -/
def ParserConfig.get_ticker_by_id (cfg : ParserConfig) (crypto_id : String) :
    Option String :=
  (cfg.CRYPTO_ID_MAP.find? (fun p => p.2 = crypto_id)).map (fun p => p.1)

/-- `CoinGeckoClient.fetch_rates` (`api_clients.py` lines 113-155) applied to
an already-parsed payload `data : crypto_id → optional base-currency price`
(`none` models a payload entry without the base-currency key). Entries with an
unknown id, a missing price, or a non-positive price are skipped; the
surviving entries are emitted as `TICKER_BASE` pairs. An empty result is
RETURNED, not raised: the function has no emptiness check. -/
def CoinGeckoClient.fetch_rates (cfg : ParserConfig)
    (data : List (String × Option ℚ)) : List (String × ℚ) :=
  data.foldl
    (fun rates entry =>
      match cfg.get_ticker_by_id entry.1 with
      | none => rates
      | some ticker =>
          match entry.2 with
          | none => rates
          | some rate =>
              if rate ≤ 0 then rates
              else dictInsert rates (ticker ++ "_" ++ cfg.BASE_CURRENCY) rate)
    []

/-- The dict built by the filtering loop of `ExchangeRateApiClient.fetch_rates`
(`api_clients.py` lines 189-207): keep raw codes that are in the tracked fiat
set with a positive numeric rate, inverting the provider convention
(`rate_to_store = 1 / provider_rate`) under the key `CODE_BASE`. -/
def exchangeRateFiltered (cfg : ParserConfig) (raw : List (String × ℚ)) :
    List (String × ℚ) :=
  raw.foldl
    (fun rates entry =>
      if cfg.FIAT_CURRENCIES.contains entry.1 then
        if entry.2 ≤ 0 then rates
        else dictInsert rates (entry.1 ++ "_" ++ cfg.BASE_CURRENCY) (1 / entry.2)
      else rates)
    []

/-- `ExchangeRateApiClient.fetch_rates` (`api_clients.py` lines 164-227)
applied to an already-parsed payload: `resultOk` models
`data.get("result") == "success"`, `raw` the `conversion_rates` dict. A
non-success payload, an empty raw dict, and an EMPTY FILTERED RESULT are all
raised as `ApiRequestError` (modelled by `Except.error`). -/
def ExchangeRateApiClient.fetch_rates (cfg : ParserConfig) (resultOk : Bool)
    (raw : List (String × ℚ)) : Except String (List (String × ℚ)) :=
  if ¬ resultOk then Except.error "ExchangeRate-API returned an error"
  else if raw = [] then Except.error "ExchangeRate-API returned an empty rate list"
  else
    let rates := exchangeRateFiltered cfg raw
    if rates = [] then Except.error "no currencies left after filtering"
    else Except.ok rates

/-- What one provider client does when polled by the coordinator: either it
returns a (possibly empty) normalized rate dict, or it raises
`ApiRequestError` / an unexpected exception with a message. -/
inductive FetchOutcome where
  | ok (rates : List (String × ℚ))
  | err (msg : String)
deriving Repr, DecidableEq

def FetchOutcome.isErr : FetchOutcome → Bool
  | FetchOutcome.ok _ => false
  | FetchOutcome.err _ => true

/-- A provider client as `RatesUpdater.run_update` sees it: its
`get_source_name()` and the outcome of its `fetch_rates()` call. -/
structure Client where
  name : String
  fetch : FetchOutcome
deriving Repr, DecidableEq

/-- The update report (`updater.py` lines 128-134), wall-clock duration
omitted. -/
structure UpdateReport where
  success : Bool
  total_rates : Nat
  by_source : List (String × Nat)
  errors : List String
deriving Repr, DecidableEq

/-- The loop state of `run_update`: the merged `all_rates` dict, the error
list, the `stats_by_source` dict and the rates store being written. -/
structure UpdState where
  all_rates : List (String × ℚ)
  errors : List String
  stats : List (String × Nat)
  store : RatesFile
deriving Repr, DecidableEq

/-- Python `dict.update`: fold the new bindings into the dict. -/
def dictUpdate (m new : List (String × ℚ)) : List (String × ℚ) :=
  new.foldl (fun acc kv => dictInsert acc kv.1 kv.2) m

/-- One iteration of the client loop of `run_update` (`updater.py` lines
67-112): an empty fetch records `0` and moves on; a non-empty fetch is merged
into the store and into `all_rates` and its size recorded; a raising client
appends `"name: msg"` to `errors` and records `0`. History-log writes are not
modelled. -/
def stepClient (now : Int) (st : UpdState) (c : Client) : UpdState :=
  match c.fetch with
  | FetchOutcome.err m =>
      { st with
        errors := st.errors ++ [c.name ++ ": " ++ m]
        stats := dictInsert st.stats c.name 0 }
  | FetchOutcome.ok [] =>
      { st with stats := dictInsert st.stats c.name 0 }
  | FetchOutcome.ok rates =>
      { st with
        store := RatesStorage.update_rates st.store rates c.name now
        all_rates := dictUpdate st.all_rates rates
        stats := dictInsert st.stats c.name rates.length }

def runClients (now : Int) (st : UpdState) : List Client → UpdState
  | [] => st
  | c :: rest => runClients now (stepClient now st c) rest

/-- `pat` is a prefix of the second character list. -/
def charsPrefixOf : List Char → List Char → Bool
  | [], _ => true
  | _ :: _, [] => false
  | a :: as, b :: bs => a = b && charsPrefixOf as bs

/-- `pat` occurs as a contiguous run inside the second character list
(Python `in` on strings). -/
def charsInfixOf (pat : List Char) : List Char → Bool
  | [] => charsPrefixOf pat []
  | b :: bs => charsPrefixOf pat (b :: bs) || charsInfixOf pat bs

/-- The `source_filter` guard at the top of the client loop (`updater.py`
lines 71-77): under a truthy filter, skip a client iff the filter word does
not appear in its source name. -/
def clientSelected (filter? : Option String) (c : Client) : Bool :=
  match filter? with
  | none => true
  | some f =>
      if f = "" then true
      else if f.toLower = "coingecko" then charsInfixOf "CoinGecko".data c.name.data
      else if f.toLower = "exchangerate" then charsInfixOf "ExchangeRate".data c.name.data
      else true

/-- `RatesUpdater.run_update` (`updater.py` lines 52-134): poll every selected
client in order, isolate per-client failures, and report
`{success, total_rates, by_source, errors}` along with the updated store;
`success` is `errors == []`. -/
def RatesUpdater.run_update (clients : List Client) (filter? : Option String)
    (store : RatesFile) (now : Int) : UpdateReport × RatesFile :=
  let final := runClients now
    { all_rates := [], errors := [], stats := [], store := store }
    (clients.filter (clientSelected filter?))
  ({ success := final.errors = []
     total_rates := final.all_rates.length
     by_source := final.stats
     errors := final.errors }, final.store)

def exceptIsOk {ε α : Type} : Except ε α → Bool
  | Except.ok _ => true
  | Except.error _ => false

theorem applyOp_nonneg (w : Wallet) (op : WalletOp) (h : 0 ≤ w.balance) :
    0 ≤ (w.applyOp op).balance := by
  cases op with
  | dep a =>
      simp only [Wallet.applyOp, Wallet.deposit]
      split_ifs with h1 h2 <;> simp <;> try exact h
      push_neg at h2
      linarith
  | wd a =>
      simp only [Wallet.applyOp, Wallet.withdraw]
      split_ifs with h1 h2 h3 <;> simp <;> try exact h
      linarith

theorem runOps_nonneg (ops : List WalletOp) (w : Wallet) (h : 0 ≤ w.balance) :
    0 ≤ (Wallet.runOps w ops).balance := by
  induction ops generalizing w with
  | nil => exact h
  | cons op rest ih =>
      exact ih (w.applyOp op) (applyOp_nonneg w op h)

/-- C5. Wallet balance invariant: starting from a non-negative balance, no
sequence of deposit/withdraw calls produces a negative balance; a withdraw of
more than the balance raises and leaves the wallet unchanged; deposit and
withdraw both reject non-positive amounts (zero via the `if not amount`
truthiness check, negatives via the explicit sign checks). Balances are exact
rationals here, hence always finite. -/
theorem wallet_balance_invariant (w : Wallet) (ops : List WalletOp) (a : ℚ)
    (h : 0 ≤ w.balance) :
    0 ≤ (Wallet.runOps w ops).balance
    ∧ (a > w.balance →
        exceptIsOk (w.withdraw a) = false ∧ w.applyOp (WalletOp.wd a) = w)
    ∧ (a ≤ 0 → exceptIsOk (w.deposit a) = false)
    ∧ (a ≤ 0 → exceptIsOk (w.withdraw a) = false) := by
  refine ⟨runOps_nonneg ops w h, ?_, ?_, ?_⟩
  · intro hgt
    have ha : ¬ a = 0 := by intro h0; rw [h0] at hgt; linarith
    constructor
    · simp [Wallet.withdraw, ha, hgt, exceptIsOk]
    · simp [Wallet.applyOp, Wallet.withdraw, ha, hgt]
  · intro hle
    by_cases h0 : a = 0
    · simp [Wallet.deposit, h0, exceptIsOk]
    · have : a < 0 := lt_of_le_of_ne hle h0
      simp [Wallet.deposit, h0, this, exceptIsOk]
  · intro hle
    by_cases h0 : a = 0
    · simp [Wallet.withdraw, h0, exceptIsOk]
    · have hneg : a < 0 := lt_of_le_of_ne hle h0
      have : ¬ a > w.balance := by linarith
      simp [Wallet.withdraw, h0, this, hneg, exceptIsOk]

/-- Witness for C5 at a concrete wallet and operation list. -/
theorem wallet_balance_invariant_witness :
    0 ≤ (Wallet.runOps ⟨"USD", 5⟩ [WalletOp.dep 3, WalletOp.wd 10, WalletOp.wd 2]).balance
    ∧ ((7 : ℚ) > (Wallet.mk "USD" 5).balance →
        exceptIsOk ((Wallet.mk "USD" 5).withdraw 7) = false
        ∧ (Wallet.mk "USD" 5).applyOp (WalletOp.wd 7) = Wallet.mk "USD" 5)
    ∧ ((7 : ℚ) ≤ 0 → exceptIsOk ((Wallet.mk "USD" 5).deposit 7) = false)
    ∧ ((7 : ℚ) ≤ 0 → exceptIsOk ((Wallet.mk "USD" 5).withdraw 7) = false) :=
  wallet_balance_invariant ⟨"USD", 5⟩ [WalletOp.dep 3, WalletOp.wd 10, WalletOp.wd 2] 7
    (by norm_num)

/-- Every code in the registry is already normalized, so the repeated
`upper().strip()` normalizations collapse on supported codes. -/
theorem supported_pyNormalize_fixed (s : String)
    (h : SUPPORTED_CURRENCIES.contains s = true) : pyNormalize s = s := by
  have hm : s ∈ SUPPORTED_CURRENCIES := by simpa using h
  simp only [SUPPORTED_CURRENCIES, List.mem_cons, List.not_mem_nil, or_false] at hm
  rcases hm with rfl | rfl | rfl | rfl | rfl | rfl | rfl | rfl | rfl | rfl | rfl <;> decide

/-- C9. `Portfolio.get_wallet` never returns `None`: on a missing (normalized)
code it inserts a fresh zero-balance wallet into the mapping and returns it;
consequently the `if not wallet` failure branch of `sell_currency` cannot
fire, and selling a currency the user has no wallet for ends in the
insufficient-funds failure (available `0 <` amount), not the no-wallet one. -/
theorem get_wallet_never_none (p : Portfolio) (st : SessionState)
    (file : RatesFile) (code : String) (amount : ℚ) (now ttl : Int)
    (habs : List.lookup (pyNormalize code) p.wallets = none)
    (hsabs : List.lookup (pyNormalize code) st.portfolio.wallets = none)
    (hamt : 0 < amount)
    (hsup : SUPPORTED_CURRENCIES.contains (pyNormalize code) = true)
    (husd : pyNormalize code ≠ "USD") :
    ((p.get_wallet code).1.balance = 0
      ∧ List.lookup (pyNormalize code) (p.get_wallet code).2.wallets
          = some (p.get_wallet code).1)
    ∧ (sell_currency st file code amount now ttl).1 = TxOutcome.insufficientFunds
    ∧ (sell_currency st file code amount now ttl).1 ≠ TxOutcome.noWalletMsg := by
  have hneg : ¬ amount ≤ 0 := not_le.mpr hamt
  have hfix : pyNormalize (pyNormalize code) = pyNormalize code :=
    supported_pyNormalize_fixed (pyNormalize code) hsup
  have hget : st.portfolio.get_wallet (pyNormalize code)
      = (Wallet.new (pyNormalize code) 0,
         { st.portfolio with
           wallets := dictInsert st.portfolio.wallets (pyNormalize code)
             (Wallet.new (pyNormalize code) 0) }) := by
    simp only [Portfolio.get_wallet, hfix, hsabs]
  have hmem : pyNormalize code ∈ SUPPORTED_CURRENCIES := by simpa using hsup
  have hsell : (sell_currency st file code amount now ttl).1
      = TxOutcome.insufficientFunds := by
    simp [sell_currency, hneg, hmem, husd, hget, walletFalsy, Wallet.new, hamt]
  have hgetp : p.get_wallet code
      = (Wallet.new (pyNormalize code) 0,
         { p with
           wallets := dictInsert p.wallets (pyNormalize code)
             (Wallet.new (pyNormalize code) 0) }) := by
    simp only [Portfolio.get_wallet, habs]
  refine ⟨⟨?_, ?_⟩, hsell, ?_⟩
  · rw [hgetp]
    rfl
  · rw [hgetp]
    exact lookup_dictInsert_self p.wallets (pyNormalize code) (Wallet.new (pyNormalize code) 0)
  · rw [hsell]
    intro hcontra
    exact absurd hcontra (by simp)

/-- Witness for C9: selling 10 EUR with no EUR wallet (spec example
scenario 2). -/
theorem get_wallet_never_none_witness :
    (((Portfolio.mk 1 []).get_wallet "EUR").1.balance = 0
      ∧ List.lookup (pyNormalize "EUR") ((Portfolio.mk 1 []).get_wallet "EUR").2.wallets
          = some ((Portfolio.mk 1 []).get_wallet "EUR").1)
    ∧ (sell_currency (SessionState.mk (Portfolio.mk 1 []) (Portfolio.mk 1 []))
        RatesFile.initial "EUR" 10 0 300).1 = TxOutcome.insufficientFunds
    ∧ (sell_currency (SessionState.mk (Portfolio.mk 1 []) (Portfolio.mk 1 []))
        RatesFile.initial "EUR" 10 0 300).1 ≠ TxOutcome.noWalletMsg :=
  get_wallet_never_none (Portfolio.mk 1 [])
    (SessionState.mk (Portfolio.mk 1 []) (Portfolio.mk 1 []))
    RatesFile.initial "EUR" 10 0 300
    (by decide) (by decide) (by norm_num) (by decide) (by decide)

/-- C6. Staleness is advisory-only: the result of `_get_rate_with_ttl` does
not depend on the clock or the TTL at all, and whenever the database-level
lookup resolves a rate — in particular when the cached record's age
`now - updated_at` exceeds the TTL, where the code merely logs a warning —
that rate is still returned, never `None`. -/
theorem stale_rate_still_returned (file : RatesFile) (A B : String)
    (now ttl now' ttl' : Int) :
    getRateWithTtl file A B now ttl = getRateWithTtl file A B now' ttl'
    ∧ (∀ r : ℚ, DatabaseManager.get_rate file A B = some r →
        getRateWithTtl file A B now ttl = some r) := by
  constructor
  · simp only [getRateWithTtl]
    cases DatabaseManager.get_rate file A B with
    | none => rfl
    | some r =>
        cases pairsUpdatedAt file A B with
        | none => rfl
        | some u => simp
  · intro r hr
    simp only [getRateWithTtl, hr]
    cases pairsUpdatedAt file A B with
    | none => rfl
    | some u => simp

/-- A cache whose `BTC_USD` record is stale: stored at time 0, queried at
time 1000 against a TTL of 300 seconds. -/
def fileStale : RatesFile :=
  { top := [("BTC_USD", { rate := 50000, updated_at := some 0, source := "CoinGecko" })]
    pairs := [("BTC_USD", { rate := 50000, updated_at := some 0, source := "CoinGecko" })]
    last_refresh := some 0 }

/-- Witness for C6: the stale `BTC_USD` record is still returned. -/
theorem stale_rate_still_returned_witness :
    getRateWithTtl fileStale "BTC" "USD" 1000 300
      = getRateWithTtl fileStale "BTC" "USD" 0 300
    ∧ getRateWithTtl fileStale "BTC" "USD" 1000 300 = some 50000 :=
  ⟨(stale_rate_still_returned fileStale "BTC" "USD" 1000 300 0 300).1,
   (stale_rate_still_returned fileStale "BTC" "USD" 1000 300 0 300).2 50000 (by decide)⟩

/-- C7. Inverse round-trip: when exactly one of the records `A_B` / `B_A` is
stored (with a positive rate) and the database-level lookup misses for both
directions, `resolve(A, B)` returns the stored rate, `resolve(B, A)` its
reciprocal, and their product is exactly 1 (rationals model the float
arithmetic exactly). -/
theorem inverse_round_trip (file : RatesFile) (A B : String) (now ttl : Int)
    (e : RateEntry)
    (hdb1 : DatabaseManager.get_rate file A B = none)
    (hdb2 : DatabaseManager.get_rate file B A = none)
    (hAB : List.lookup (A ++ "_" ++ B) file.pairs = some e)
    (hrate : 0 < e.rate)
    (hBA : List.lookup (B ++ "_" ++ A) file.pairs = none) :
    ∃ x y : ℚ, getRateWithTtl file A B now ttl = some x
      ∧ getRateWithTtl file B A now ttl = some y
      ∧ x * y = 1 := by
  have hne : e.rate ≠ 0 := ne_of_gt hrate
  refine ⟨e.rate, 1 / e.rate, ?_, ?_, ?_⟩
  · simp only [getRateWithTtl, hdb1, ratesFallbackLookup, hAB, hne]
    simp [hne]
  · simp only [getRateWithTtl, hdb2, ratesFallbackLookup, hBA, hAB, hne]
    simp [hne]
  · field_simp

/-- A cache holding only the `BTC_USD` record. -/
def fileOneDirection : RatesFile :=
  { top := []
    pairs := [("BTC_USD", { rate := 50000, updated_at := some 0, source := "CoinGecko" })]
    last_refresh := some 0 }

/-- Witness for C7 on the one-record cache. -/
theorem inverse_round_trip_witness :
    ∃ x y : ℚ, getRateWithTtl fileOneDirection "BTC" "USD" 0 300 = some x
      ∧ getRateWithTtl fileOneDirection "USD" "BTC" 0 300 = some y
      ∧ x * y = 1 :=
  inverse_round_trip fileOneDirection "BTC" "USD" 0 300
    { rate := 50000, updated_at := some 0, source := "CoinGecko" }
    (by decide) (by decide) (by decide) (by norm_num) (by decide)

/-- A cache holding only fresh `EUR_USD` and `GBP_USD` records, the input of
spec example scenario 3. -/
def fileTwoLegs : RatesFile :=
  { top := []
    pairs := [("EUR_USD", { rate := 2, updated_at := some 0, source := "ExchangeRate-API" }),
              ("GBP_USD", { rate := 4, updated_at := some 0, source := "ExchangeRate-API" })]
    last_refresh := some 0 }

/-- Counterexample to C3: with only `EUR_USD` and `GBP_USD` stored, both legs
resolve, yet the resolver behind `get_exchange_rate` / buy / sell
(`_get_rate_with_ttl`) returns nothing for `EUR → GBP` — it never
triangulates. -/
theorem resolver_never_triangulates :
    getRateWithTtl fileTwoLegs "EUR" "USD" 0 300 = some 2
    ∧ getRateWithTtl fileTwoLegs "GBP" "USD" 0 300 = some 4
    ∧ getRateWithTtl fileTwoLegs "EUR" "GBP" 0 300 = none := by
  refine ⟨by decide, by decide, by decide⟩

/-- C3 (amended). Triangulation through USD lives only in the
portfolio-valuation path `_convert_through_usd`, which indeed returns
`rate(A→USD) / rate(B→USD)` when both legs resolve to non-zero rates; the
pair resolver `_get_rate_with_ttl` itself performs no triangulation and
fails when neither the direct nor the inverse pair is recorded. -/
theorem triangulation_only_in_portfolio_path (file : RatesFile)
    (A B : String) (now ttl : Int) (ra rb : ℚ)
    (hA : A ≠ "USD") (hB : B ≠ "USD")
    (ha : getRateWithTtl file A "USD" now ttl = some ra) (hra : ra ≠ 0)
    (hb : getRateWithTtl file B "USD" now ttl = some rb) (hrb : rb ≠ 0) :
    convert_through_usd file A B now ttl = some (ra / rb)
    ∧ (DatabaseManager.get_rate file A B = none →
        List.lookup (A ++ "_" ++ B) file.pairs = none →
        List.lookup (B ++ "_" ++ A) file.pairs = none →
        getRateWithTtl file A B now ttl = none) := by
  constructor
  · simp [convert_through_usd, hA, hB, ha, hb, hra, hrb]
  · intro hdb hd hi
    simp only [getRateWithTtl, hdb, ratesFallbackLookup, hd, hi]

/-- Witness for the amended C3 on the two-leg cache (spec example
scenario 3's data). -/
theorem triangulation_only_in_portfolio_path_witness :
    convert_through_usd fileTwoLegs "EUR" "GBP" 0 300 = some ((2 : ℚ) / 4)
    ∧ (DatabaseManager.get_rate fileTwoLegs "EUR" "GBP" = none →
        List.lookup ("EUR" ++ "_" ++ "GBP") fileTwoLegs.pairs = none →
        List.lookup ("GBP" ++ "_" ++ "EUR") fileTwoLegs.pairs = none →
        getRateWithTtl fileTwoLegs "EUR" "GBP" 0 300 = none) :=
  triangulation_only_in_portfolio_path fileTwoLegs "EUR" "GBP" 0 300
    2 4 (by decide) (by decide) (by decide) (by norm_num)
    (by decide) (by norm_num)

/-- A sequence of Update-Coordinator write cycles applied to the rates file
(`RatesUpdater.run_update` only ever writes through
`RatesStorage.update_rates`). -/
def coordinatorWrites : RatesFile → List (List (String × ℚ) × String × Int) → RatesFile
  | file, [] => file
  | file, w :: ws => coordinatorWrites (RatesStorage.update_rates file w.1 w.2.1 w.2.2) ws

theorem coordinatorWrites_top (ws : List (List (String × ℚ) × String × Int))
    (file : RatesFile) : (coordinatorWrites file ws).top = file.top := by
  induction ws generalizing file with
  | nil => rfl
  | cons w ws ih => exact (ih _).trans rfl

/-- C10. Format mismatch between the two readers: `RatesStorage.update_rates`
writes records under the `"pairs"` key while `DatabaseManager.get_rate` looks
pair keys up at the top level, so on any cache produced by Update-Coordinator
writes alone `get_rate` returns `None` for every pair of distinct
(normalized) currencies — it returns `1.0` only when the two codes coincide —
and the resolver's answer is exactly the `RatesStorage` fallback read, a
function that takes no clock and no TTL. -/
theorem rates_format_mismatch (ws : List (List (String × ℚ) × String × Int))
    (A B : String) (now ttl : Int) :
    (pyNormalize A ≠ pyNormalize B →
      DatabaseManager.get_rate (coordinatorWrites RatesFile.initial ws) A B = none
      ∧ getRateWithTtl (coordinatorWrites RatesFile.initial ws) A B now ttl
          = ratesFallbackLookup (coordinatorWrites RatesFile.initial ws) A B)
    ∧ (pyNormalize A = pyNormalize B →
      DatabaseManager.get_rate (coordinatorWrites RatesFile.initial ws) A B = some 1) := by
  have htop : (coordinatorWrites RatesFile.initial ws).top = [] :=
    coordinatorWrites_top ws RatesFile.initial
  constructor
  · intro hne
    have hdb : DatabaseManager.get_rate (coordinatorWrites RatesFile.initial ws) A B
        = none := by
      simp [DatabaseManager.get_rate, hne, htop]
    exact ⟨hdb, by simp only [getRateWithTtl, hdb]⟩
  · intro heq
    simp [DatabaseManager.get_rate, heq]

/-- One coordinator write cycle, as `run_update` would issue it. -/
def wsOneCycle : List (List (String × ℚ) × String × Int) :=
  [([("BTC_USD", 50000)], "CoinGecko", 0)]

/-- Witness for C10 after one coordinator write cycle. -/
theorem rates_format_mismatch_witness :
    (DatabaseManager.get_rate (coordinatorWrites RatesFile.initial wsOneCycle) "BTC" "USD" = none
      ∧ getRateWithTtl (coordinatorWrites RatesFile.initial wsOneCycle) "BTC" "USD" 0 300
          = ratesFallbackLookup (coordinatorWrites RatesFile.initial wsOneCycle) "BTC" "USD")
    ∧ DatabaseManager.get_rate (coordinatorWrites RatesFile.initial wsOneCycle) "BTC" "BTC" = some 1 :=
  ⟨(rates_format_mismatch wsOneCycle "BTC" "USD" 0 300).1 (by decide),
   (rates_format_mismatch wsOneCycle "BTC" "BTC" 0 300).2 (by decide)⟩

/-- A rates cache holding one fresh `BTC_USD` record, as the Update
Coordinator writes it. -/
def fileLedger : RatesFile :=
  { top := []
    pairs := [("BTC_USD", { rate := 50000, updated_at := some 0, source := "CoinGecko" })]
    last_refresh := some 0 }

/-- Session holding 1 BTC, in memory and persisted. -/
def stSell : SessionState :=
  { portfolio := { user_id := 1, wallets := [("BTC", { currency_code := "BTC", balance := 1 })] }
    persisted := { user_id := 1, wallets := [("BTC", { currency_code := "BTC", balance := 1 })] } }

/-- C1 (code bug). A sell that passes validation, the funds check and rate
resolution debits the source wallet and THEN hits
`portfolio.get_or_create_wallet("USD")` — a method `Portfolio` does not have —
so the call returns a failure while the in-memory BTC balance has already
dropped from 1 to 1/2; only the persisted portfolio is unchanged. The spec's
all-or-nothing guarantee is violated by this failing call. -/
theorem sell_partial_mutation_on_failure :
    (sell_currency stSell fileLedger "BTC" (1/2) 0 300).1 = TxOutcome.attributeError
    ∧ (List.lookup "BTC"
        (sell_currency stSell fileLedger "BTC" (1/2) 0 300).2.portfolio.wallets).map
        Wallet.balance = some (1/2)
    ∧ (List.lookup "BTC" stSell.portfolio.wallets).map Wallet.balance = some 1
    ∧ (sell_currency stSell fileLedger "BTC" (1/2) 0 300).2.persisted = stSell.persisted := by
  have hn : pyNormalize "BTC" = "BTC" := by decide
  have hs : "BTC" ∈ SUPPORTED_CURRENCIES := by decide
  have husd : ("BTC" : String) ≠ "USD" := by decide
  have hr : getRateWithTtl fileLedger "BTC" "USD" 0 300 = some 50000 := by decide
  have hw : stSell.portfolio.get_wallet "BTC"
      = ({ currency_code := "BTC", balance := 1 }, stSell.portfolio) := by decide
  have hlt : ¬ ((1 : ℚ) < 1/2) := by norm_num
  have hgt : ¬ ((1 : ℚ)/2 > 1) := by norm_num
  have h50 : (50000 : ℚ) ≠ 0 := by norm_num
  have key : sell_currency stSell fileLedger "BTC" (1/2) 0 300
      = (TxOutcome.attributeError,
         SessionState.mk
           (Portfolio.mk stSell.portfolio.user_id
             (dictInsert stSell.portfolio.wallets "BTC" (Wallet.mk "BTC" (1/2))))
           stSell.persisted) := by
    simp [sell_currency, hn, hs, husd, hr, hw, walletFalsy, Wallet.withdraw, h50]
    norm_num
  refine ⟨by rw [key], ?_, by decide, by rw [key]⟩
  rw [key]
  simp [lookup_dictInsert_self]

/-- Session holding 1000 USD, in memory and persisted. -/
def stBuy : SessionState :=
  { portfolio := { user_id := 1, wallets := [("USD", { currency_code := "USD", balance := 1000 })] }
    persisted := { user_id := 1, wallets := [("USD", { currency_code := "USD", balance := 1000 })] } }

/-- C2 (code bug). The spec's scenario — 1000 USD in the base wallet, a
cached `BTC_USD` rate of 50000, `buy("BTC", 0.01)` — does not succeed:
`buy_currency` reaches `portfolio.get_or_create_wallet("USD")`, a method
`Portfolio` does not define, and the resulting `AttributeError` turns every
such buy into a failure with the session state untouched; nothing is ever
debited, credited or persisted. -/
theorem buy_always_fails_attribute_error :
    (buy_currency stBuy fileLedger "BTC" (1/100) 0 300).1 = TxOutcome.attributeError
    ∧ (buy_currency stBuy fileLedger "BTC" (1/100) 0 300).1 ≠ TxOutcome.persisted
    ∧ (buy_currency stBuy fileLedger "BTC" (1/100) 0 300).2 = stBuy := by
  have hn : pyNormalize "BTC" = "BTC" := by decide
  have hs : "BTC" ∈ SUPPORTED_CURRENCIES := by decide
  have husd : ("BTC" : String) ≠ "USD" := by decide
  have hne : ("BTC" : String) ≠ "" := by decide
  have hr : getRateWithTtl fileLedger "BTC" "USD" 0 300 = some 50000 := by decide
  have h50 : (50000 : ℚ) ≠ 0 := by norm_num
  have key : buy_currency stBuy fileLedger "BTC" (1/100) 0 300
      = (TxOutcome.attributeError, stBuy) := by
    simp [buy_currency, hn, hs, husd, hne, hr, h50]
  refine ⟨by rw [key], by rw [key]; decide, by rw [key]⟩

/-- The default parser configuration. -/
def defaultParserConfig : ParserConfig := {}

/-- Counterexample to C8: a CoinGecko payload whose result set is empty after
filtering (an unknown id and an entry without the base-currency price) is
returned as an empty SUCCESS — `CoinGeckoClient.fetch_rates` has no emptiness
check — and the coordinator records it as `0` rates with no error and
`success = true`, not as an "API request failed" error. -/
theorem coingecko_empty_is_success :
    CoinGeckoClient.fetch_rates defaultParserConfig
        [("unknowncoin", some 5), ("bitcoin", none)] = []
    ∧ (RatesUpdater.run_update
        [{ name := "CoinGecko",
           fetch := FetchOutcome.ok (CoinGeckoClient.fetch_rates defaultParserConfig
             [("unknowncoin", some 5), ("bitcoin", none)]) }]
        none RatesFile.initial 0).1.success = true
    ∧ (RatesUpdater.run_update
        [{ name := "CoinGecko",
           fetch := FetchOutcome.ok (CoinGeckoClient.fetch_rates defaultParserConfig
             [("unknowncoin", some 5), ("bitcoin", none)]) }]
        none RatesFile.initial 0).1.errors = [] := by
  refine ⟨by decide, by decide, by decide⟩

/-- C8 (amended). The empty-after-filtering failure is raised only by the
fiat client: `ExchangeRateApiClient.fetch_rates` raises `ApiRequestError`
when a non-empty payload filters down to nothing, while
`CoinGeckoClient.fetch_rates` returns the empty map as a success, which
`run_update` records as zero rates from that source with no error. -/
theorem empty_after_filtering_fiat_only (cfg : ParserConfig)
    (raw : List (String × ℚ)) (data : List (String × Option ℚ))
    (name : String) (store : RatesFile) (now : Int)
    (hraw : raw ≠ []) (hfil : exchangeRateFiltered cfg raw = [])
    (hdata : CoinGeckoClient.fetch_rates cfg data = []) :
    exceptIsOk (ExchangeRateApiClient.fetch_rates cfg true raw) = false
    ∧ (RatesUpdater.run_update
        [{ name := name, fetch := FetchOutcome.ok (CoinGeckoClient.fetch_rates cfg data) }]
        none store now).1.success = true
    ∧ (RatesUpdater.run_update
        [{ name := name, fetch := FetchOutcome.ok (CoinGeckoClient.fetch_rates cfg data) }]
        none store now).1.errors = [] := by
  refine ⟨?_, ?_, ?_⟩
  · simp [ExchangeRateApiClient.fetch_rates, hraw, hfil, exceptIsOk]
  · rw [hdata]
    simp [RatesUpdater.run_update, runClients, stepClient, clientSelected, List.filter]
  · rw [hdata]
    simp [RatesUpdater.run_update, runClients, stepClient, clientSelected, List.filter]

/-- Witness for the amended C8: a payload of untracked currencies for the
fiat client, and the empty-after-filtering CoinGecko payload. -/
theorem empty_after_filtering_fiat_only_witness :
    exceptIsOk (ExchangeRateApiClient.fetch_rates defaultParserConfig true
      [("AAA", 5)]) = false
    ∧ (RatesUpdater.run_update
        [{ name := "CoinGecko",
           fetch := FetchOutcome.ok (CoinGeckoClient.fetch_rates defaultParserConfig
             [("unknowncoin", some 5)]) }]
        none RatesFile.initial 0).1.success = true
    ∧ (RatesUpdater.run_update
        [{ name := "CoinGecko",
           fetch := FetchOutcome.ok (CoinGeckoClient.fetch_rates defaultParserConfig
             [("unknowncoin", some 5)]) }]
        none RatesFile.initial 0).1.errors = [] :=
  empty_after_filtering_fiat_only defaultParserConfig [("AAA", 5)]
    [("unknowncoin", some 5)] "CoinGecko" RatesFile.initial 0
    (by decide) (by decide) (by decide)

/-- The error-list contribution of one client in `run_update`: `"name: msg"`
when its fetch raises, nothing otherwise. -/
def Client.errEntry (c : Client) : List String :=
  match c.fetch with
  | FetchOutcome.err m => [c.name ++ ": " ++ m]
  | FetchOutcome.ok _ => []

/-- The error messages a full client pass accumulates, in order. -/
def errsOf : List Client → List String
  | [] => []
  | c :: cs => c.errEntry ++ errsOf cs

/-- The `by_source` count of one client: `0` on an error or an empty fetch,
the size of the returned dict otherwise. -/
def Client.statOf (c : Client) : Nat :=
  match c.fetch with
  | FetchOutcome.err _ => 0
  | FetchOutcome.ok rs => rs.length

theorem stepClient_stats (now : Int) (st : UpdState) (c : Client) :
    (stepClient now st c).stats = dictInsert st.stats c.name c.statOf := by
  obtain ⟨name, fetch⟩ := c
  cases fetch with
  | err m => rfl
  | ok rs =>
      cases rs with
      | nil => rfl
      | cons a as => rfl

theorem stepClient_errors (now : Int) (st : UpdState) (c : Client) :
    (stepClient now st c).errors = st.errors ++ c.errEntry := by
  obtain ⟨name, fetch⟩ := c
  cases fetch with
  | err m => rfl
  | ok rs =>
      cases rs with
      | nil => simp [stepClient, Client.errEntry]
      | cons a as => simp [stepClient, Client.errEntry]

theorem errEntry_eq_nil (c : Client) :
    (c.errEntry = []) ↔ c.fetch.isErr = false := by
  obtain ⟨name, fetch⟩ := c
  cases fetch <;> simp [Client.errEntry, FetchOutcome.isErr]

theorem runClients_errors (now : Int) (cs : List Client) (st : UpdState) :
    (runClients now st cs).errors = st.errors ++ errsOf cs := by
  induction cs generalizing st with
  | nil => simp [runClients, errsOf]
  | cons c rest ih =>
      simp only [runClients, errsOf]
      rw [ih, stepClient_errors, List.append_assoc]

theorem errsOf_eq_nil_iff (cs : List Client) :
    errsOf cs = [] ↔ ∀ c ∈ cs, c.fetch.isErr = false := by
  induction cs with
  | nil => simp [errsOf]
  | cons c rest ih => simp [errsOf, List.append_eq_nil, errEntry_eq_nil, ih]

theorem runClients_stats_untouched (now : Int) (cs : List Client)
    (st : UpdState) (k : String) (h : ∀ c ∈ cs, c.name ≠ k) :
    List.lookup k (runClients now st cs).stats = List.lookup k st.stats := by
  induction cs generalizing st with
  | nil => rfl
  | cons c rest ih =>
      simp only [runClients]
      rw [ih _ (fun c' hc' => h c' (List.mem_cons_of_mem _ hc'))]
      rw [stepClient_stats]
      exact lookup_dictInsert_other _ _ _ _
        (fun he => h c (List.mem_cons_self _ _) he.symm)

theorem runClients_stats_mem (now : Int) (cs : List Client) (st : UpdState)
    (c : Client) (hc : c ∈ cs) (hnd : (cs.map Client.name).Nodup) :
    List.lookup c.name (runClients now st cs).stats = some c.statOf := by
  induction cs generalizing st with
  | nil => cases hc
  | cons hd rest ih =>
      have hcons : (∀ x ∈ rest, ¬ x.name = hd.name)
          ∧ (List.map Client.name rest).Nodup := by simpa using hnd
      obtain heq | hmem := List.mem_cons.mp hc
      · subst heq
        simp only [runClients]
        rw [runClients_stats_untouched now rest _ c.name
          (fun c' hc' => hcons.1 c' hc')]
        rw [stepClient_stats]
        exact lookup_dictInsert_self _ _ _
      · simp only [runClients]
        exact ih _ hmem hcons.2

theorem foldl_update_keeps (rates : List (String × ℚ)) (src : String)
    (now : Int) (ps : List (String × RateEntry)) (k : String)
    (h : (List.lookup k ps).isSome = true) :
    (List.lookup k (rates.foldl
      (fun a kv => dictInsert a kv.1
        { rate := kv.2, updated_at := some now, source := src }) ps)).isSome = true := by
  induction rates generalizing ps with
  | nil => exact h
  | cons kv rest ih => exact ih _ (lookup_dictInsert_isSome _ _ _ _ h)

theorem foldl_update_mem (rates : List (String × ℚ)) (src : String)
    (now : Int) (ps : List (String × RateEntry)) (k : String) (v : ℚ)
    (h : (k, v) ∈ rates) :
    (List.lookup k (rates.foldl
      (fun a kv => dictInsert a kv.1
        { rate := kv.2, updated_at := some now, source := src }) ps)).isSome = true := by
  induction rates generalizing ps with
  | nil => cases h
  | cons kv rest ih =>
      rcases List.mem_cons.mp h with heq | hmem
      · have hins : (List.lookup k (dictInsert ps kv.1
            { rate := kv.2, updated_at := some now, source := src })).isSome = true := by
          rw [← heq]
          simp [lookup_dictInsert_self]
        exact foldl_update_keeps rest src now _ k hins
      · exact ih _ hmem

theorem stepClient_store_keeps (now : Int) (st : UpdState) (c : Client)
    (k : String) (h : (List.lookup k st.store.pairs).isSome = true) :
    (List.lookup k (stepClient now st c).store.pairs).isSome = true := by
  obtain ⟨name, fetch⟩ := c
  cases fetch with
  | err m => exact h
  | ok rs =>
      cases rs with
      | nil => exact h
      | cons a as =>
          simp only [stepClient, RatesStorage.update_rates]
          exact foldl_update_keeps _ _ _ _ _ h

theorem runClients_store_keeps (now : Int) (cs : List Client) (st : UpdState)
    (k : String) (h : (List.lookup k st.store.pairs).isSome = true) :
    (List.lookup k (runClients now st cs).store.pairs).isSome = true := by
  induction cs generalizing st with
  | nil => exact h
  | cons c rest ih => exact ih _ (stepClient_store_keeps now st c k h)

theorem runClients_store_mem (now : Int) (cs : List Client) (st : UpdState)
    (c : Client) (rs : List (String × ℚ)) (k : String) (v : ℚ)
    (hc : c ∈ cs) (hf : c.fetch = FetchOutcome.ok rs) (hkv : (k, v) ∈ rs) :
    (List.lookup k (runClients now st cs).store.pairs).isSome = true := by
  induction cs generalizing st with
  | nil => cases hc
  | cons hd rest ih =>
      rcases List.mem_cons.mp hc with rfl | hmem
      · simp only [runClients]
        apply runClients_store_keeps
        cases rs with
        | nil => cases hkv
        | cons a as =>
            simp only [stepClient, hf, RatesStorage.update_rates]
            exact foldl_update_mem _ _ _ _ k v hkv
      · simp only [runClients]
        exact ih _ hmem

theorem filter_selected_none (cs : List Client) :
    cs.filter (clientSelected none) = cs := by
  induction cs with
  | nil => rfl
  | cons c rest ih => simp [List.filter, clientSelected, ih]

/-- C4. The `run_update` report: `success` is true iff no client raised; the
error list is exactly one `"name: msg"` entry per raising client in order
(so an erring client contributes one entry, a client returning zero rates
without raising contributes none and cannot make `success` false);
`by_source` maps every client to 0 when it raised or returned nothing and to
its rate count otherwise; and every pair returned by any non-raising client
is merged into the rates store. -/
theorem run_update_report (clients : List Client) (store : RatesFile)
    (now : Int) (hnd : (clients.map Client.name).Nodup) :
    ((RatesUpdater.run_update clients none store now).1.success = true
        ↔ ∀ c ∈ clients, c.fetch.isErr = false)
    ∧ (RatesUpdater.run_update clients none store now).1.errors = errsOf clients
    ∧ (∀ c ∈ clients,
        List.lookup c.name (RatesUpdater.run_update clients none store now).1.by_source
          = some c.statOf)
    ∧ (∀ c ∈ clients, ∀ rs, c.fetch = FetchOutcome.ok rs → ∀ kv ∈ rs,
        (List.lookup kv.1
          (RatesUpdater.run_update clients none store now).2.pairs).isSome = true) := by
  have hfil := filter_selected_none clients
  have herr : (RatesUpdater.run_update clients none store now).1.errors
      = errsOf clients := by
    simp only [RatesUpdater.run_update, hfil]
    simpa using runClients_errors now clients
      { all_rates := [], errors := [], stats := [], store := store }
  refine ⟨?_, herr, ?_, ?_⟩
  · have hsucc : (RatesUpdater.run_update clients none store now).1.success
        = decide ((RatesUpdater.run_update clients none store now).1.errors = []) := rfl
    rw [hsucc, herr]
    simp [errsOf_eq_nil_iff]
  · intro c hc
    simp only [RatesUpdater.run_update, hfil]
    exact runClients_stats_mem now clients
      { all_rates := [], errors := [], stats := [], store := store } c hc hnd
  · intro c hc rs hf kv hkv
    simp only [RatesUpdater.run_update, hfil]
    exact runClients_store_mem now clients
      { all_rates := [], errors := [], stats := [], store := store }
      c rs kv.1 kv.2 hc hf (by simpa using hkv)

/-- The client pair of spec example scenario 4: CoinGecko times out,
ExchangeRate-API returns rates. -/
def demoClients : List Client :=
  [{ name := "CoinGecko", fetch := FetchOutcome.err "timeout" },
   { name := "ExchangeRate-API",
     fetch := FetchOutcome.ok [("EUR_USD", 1), ("GBP_USD", 2)] }]

/-- Witness for C4 on the scenario-4 client pair. -/
theorem run_update_report_witness :
    ((RatesUpdater.run_update demoClients none RatesFile.initial 0).1.success = true
        ↔ ∀ c ∈ demoClients, c.fetch.isErr = false)
    ∧ (RatesUpdater.run_update demoClients none RatesFile.initial 0).1.errors
        = errsOf demoClients
    ∧ (∀ c ∈ demoClients,
        List.lookup c.name
          (RatesUpdater.run_update demoClients none RatesFile.initial 0).1.by_source
          = some c.statOf)
    ∧ (∀ c ∈ demoClients, ∀ rs, c.fetch = FetchOutcome.ok rs → ∀ kv ∈ rs,
        (List.lookup kv.1
          (RatesUpdater.run_update demoClients none RatesFile.initial 0).2.pairs).isSome
          = true) :=
  run_update_report demoClients RatesFile.initial 0 (by decide)
